import Mathlib

/-!
# Verification of the SOS game engine (`sos-game/sos`)

Shallow embedding of the game-state engine found in `sos/models.py`,
`sos/gamecore.py`, `sos/modes.py` and the probing helper in `sos/players.py`.

Python integers become `Int`, the `n x n` grids (`Board.grid`, `Board.owner`)
become total functions `Int -> Int -> _` updated pointwise (every read the code
performs on them is guarded by `in_bounds`), raising `ValueError` becomes
`Except String`, and rejected moves keep their `Bool` return value.
-/

/-- Python `models.py` `Letter`: a cell state, `EMPTY`, `S` or `O`. -/
inductive Letter where
  | EMPTY
  | S
  | O
deriving DecidableEq, Repr

/-- Python `models.py` `Player`: the two sides, `BLUE` and `RED`. -/
inductive Player where
  | BLUE
  | RED
deriving DecidableEq, Repr

/-- Python `models.py` `Player.other`: the opposite player. -/
def Player.other : Player → Player
  | .BLUE => .RED
  | .RED => .BLUE

/-- Python `models.py` `GameMode`: the two rule variants. -/
inductive GameMode where
  | SIMPLE
  | GENERAL
deriving DecidableEq, Repr

/-- Python `models.py` `SOSLine`: a detected S-O-S sequence; coordinates of the three
letters in order (start, middle, end) and the credited player. -/
structure SOSLine where
  r1 : Int
  c1 : Int
  r2 : Int
  c2 : Int
  r3 : Int
  c3 : Int
  owner : Player
deriving DecidableEq, Repr

/-- Python `models.py` `Board`: the `n x n` grid, per-cell owner, and fill counter.
The two Python lists of lists are embedded as total functions; the code only
ever reads them at in-bounds coordinates. -/
structure Board where
  n : Int
  grid : Int → Int → Letter
  owner : Int → Int → Option Player
  filled_count : Int

/-- Pointwise update of an embedded grid, `f[r][c] = v`. -/
def updateFn {α : Type} (f : Int → Int → α) (r c : Int) (v : α) : Int → Int → α :=
  fun r' c' => if r' = r ∧ c' = c then v else f r' c'

/-- Python `models.py` `Board.__init__`: raises `ValueError` for `n <= 2`, otherwise
an all-empty board with `filled_count = 0`. -/
def Board.init (n : Int) : Except String Board :=
  if n ≤ 2 then .error "Board size must be greater than 2."
  else .ok { n := n, grid := fun _ _ => .EMPTY, owner := fun _ _ => none, filled_count := 0 }

/-- Python `models.py` `Board.in_bounds`. -/
def Board.in_bounds (b : Board) (r c : Int) : Bool :=
  decide (0 ≤ r ∧ r < b.n ∧ 0 ≤ c ∧ c < b.n)

/-- Python `models.py` `Board.is_empty`. -/
def Board.is_empty (b : Board) (r c : Int) : Bool :=
  decide (b.grid r c = .EMPTY)

/-- Python `models.py` `Board.place`: validate, then set symbol and owner and bump the
fill counter; returns the (possibly unchanged) board and the success flag. -/
def Board.place (b : Board) (r c : Int) (letter : Letter) (owner : Player) :
    Board × Bool :=
  if !(b.in_bounds r c) || !(b.is_empty r c) then (b, false)
  else if ¬(letter = .S ∨ letter = .O) then (b, false)
  else ({ b with grid := updateFn b.grid r c letter,
                 owner := updateFn b.owner r c (some owner),
                 filled_count := b.filled_count + 1 }, true)

/-- Python `models.py` `Board.reset`: optionally change the size (rejecting `n <= 2`),
then clear every cell and the fill counter. -/
def Board.reset (b : Board) (size : Option Int) : Except String Board :=
  match size with
  | some n =>
    if n ≤ 2 then .error "Board size must be greater than 2."
    else .ok { n := n, grid := fun _ _ => .EMPTY, owner := fun _ _ => none, filled_count := 0 }
  | none =>
    .ok { b with grid := fun _ _ => .EMPTY, owner := fun _ _ => none, filled_count := 0 }

/-- Python `gamecore.py` `DIRS`: the 8 directional vectors around a cell. -/
def DIRS : List (Int × Int) :=
  [(-1, -1), (-1, 0), (-1, 1), (0, -1), (0, 1), (1, -1), (1, 0), (1, 1)]

/-- The local helper `cell` in `gamecore.py` `_detect_sos_from`: the letter at
`(r, c)`, or `none` when out of bounds. -/
def cellAt (b : Board) (r c : Int) : Option Letter :=
  if b.in_bounds r c then some (b.grid r c) else none

/-- The "S at start" check of `_detect_sos_from` for one direction:
`(r,c)=S, (r+dr,c+dc)=O, (r+2dr,c+2dc)=S`. -/
def sStartSeg (b : Board) (turn : Player) (r c : Int) (d : Int × Int) : List SOSLine :=
  if b.in_bounds (r + 2 * d.1) (c + 2 * d.2) &&
     decide (cellAt b (r + d.1) (c + d.2) = some .O) &&
     decide (cellAt b (r + 2 * d.1) (c + 2 * d.2) = some .S) then
    [⟨r, c, r + d.1, c + d.2, r + 2 * d.1, c + 2 * d.2, turn⟩]
  else []

/-- The "S at end" check of `_detect_sos_from` for one direction:
`(r-2dr,c-2dc)=S, (r-dr,c-dc)=O, (r,c)=S`. -/
def sEndSeg (b : Board) (turn : Player) (r c : Int) (d : Int × Int) : List SOSLine :=
  if b.in_bounds (r - 2 * d.1) (c - 2 * d.2) &&
     decide (cellAt b (r - d.1) (c - d.2) = some .O) &&
     decide (cellAt b (r - 2 * d.1) (c - 2 * d.2) = some .S) then
    [⟨r - 2 * d.1, c - 2 * d.2, r - d.1, c - d.2, r, c, turn⟩]
  else []

/-- The "O in the middle" check of `_detect_sos_from` for one direction:
`(r-dr,c-dc)=S, (r,c)=O, (r+dr,c+dc)=S`. -/
def oMidSeg (b : Board) (turn : Player) (r c : Int) (d : Int × Int) : List SOSLine :=
  if b.in_bounds (r - d.1) (c - d.2) && b.in_bounds (r + d.1) (c + d.2) &&
     decide (cellAt b (r - d.1) (c - d.2) = some .S) &&
     decide (cellAt b (r + d.1) (c + d.2) = some .S) then
    [⟨r - d.1, c - d.2, r, c, r + d.1, c + d.2, turn⟩]
  else []

/-- Python `gamecore.py` `BaseGame._detect_sos_from`: every S-O-S record whose triplet
uses the cell `(r, c)`, collected per direction in `DIRS` order; within one
direction the "S at start" record precedes the "S at end" record, matching the
two `append` calls of the Python loop. -/
def detect_sos_from (b : Board) (turn : Player) (r c : Int) : List SOSLine :=
  if b.grid r c = .S then
    DIRS.flatMap fun d => sStartSeg b turn r c d ++ sEndSeg b turn r c d
  else if b.grid r c = .O then
    DIRS.flatMap fun d => oMidSeg b turn r c d
  else []

/-- Python `gamecore.py` `BaseGame` state, together with `rules`: the concrete
subclass the instance was constructed as (`SimpleGame` or `GeneralGame`),
which in Python is the object's class and can never change, while `mode` is
the mutable `self.mode` label that `start_new_game` may overwrite. -/
structure Game where
  rules : GameMode
  mode : GameMode
  board : Board
  current_turn : Player
  score : Player → Int
  lines : List SOSLine
  winner : Option Player
  is_draw : Bool
  is_over : Bool

/-- Python `modes.py` `SimpleGame._after_move`: first S-O-S wins instantly; otherwise
switch turns and declare a draw when the board is full with no winner. -/
def SimpleGame.after_move (g : Game) (new_lines_created : Bool) : Game :=
  if new_lines_created = true ∧ g.is_over = false then
    { g with winner := some g.current_turn, is_over := true }
  else
    let g := { g with current_turn := g.current_turn.other }
    if g.board.filled_count = g.board.n * g.board.n ∧ g.winner = none then
      { g with is_draw := true, is_over := true }
    else g

/-- Python `modes.py` `GeneralGame._after_move`: switch turns only when no S-O-S was
formed; when the board becomes full, compare scores and finish. -/
def GeneralGame.after_move (g : Game) (new_lines_created : Bool) : Game :=
  let g := if new_lines_created = false then
    { g with current_turn := g.current_turn.other } else g
  if g.board.filled_count = g.board.n * g.board.n then
    let blue_score := g.score .BLUE
    let red_score := g.score .RED
    let g := if blue_score > red_score then { g with winner := some .BLUE }
      else if red_score > blue_score then { g with winner := some .RED }
      else { g with is_draw := true }
    { g with is_over := true }
  else g

/-- The dynamic dispatch of the abstract hook `BaseGame._after_move`: the
instance's class (`rules`) selects which `_after_move` body runs. -/
def Game.after_move (g : Game) (new_lines_created : Bool) : Game :=
  match g.rules with
  | .SIMPLE => SimpleGame.after_move g new_lines_created
  | .GENERAL => GeneralGame.after_move g new_lines_created

/-- Python `gamecore.py` `BaseGame.make_move`: reject when over, when the letter is
not `S`/`O`, or when `Board.place` fails; otherwise place, detect, append every
found line while adding 1 to the mover's score per line (the Python `for`
loop), then run the subclass hook. -/
def Game.make_move (g : Game) (r c : Int) (letter : Letter) : Game × Bool :=
  if g.is_over then (g, false)
  else if ¬(letter = .S ∨ letter = .O) then (g, false)
  else
    match g.board.place r c letter g.current_turn with
    | (b, false) => ({ g with board := b }, false)
    | (b, true) =>
      let new_lines := detect_sos_from b g.current_turn r c
      let g1 : Game :=
        { g with board := b,
                 lines := g.lines ++ new_lines,
                 score := fun p => if p = g.current_turn
                   then g.score p + (new_lines.length : Int) else g.score p }
      (g1.after_move (decide (0 < new_lines.length)), true)

/-- Python `gamecore.py` `BaseGame.start_new_game`: optionally overwrite `self.mode`,
default the size to the current one, reset the board (which may reject the
size), and reinitialize every game field. -/
def Game.start_new_game (g : Game) (size : Option Int) (mode : Option GameMode) :
    Except String Game :=
  let g := match mode with
    | some m => { g with mode := m }
    | none => g
  let sz := match size with
    | none => g.board.n
    | some s => s
  (g.board.reset (some sz)).map fun b =>
    { g with board := b, current_turn := .BLUE, score := fun _ => 0,
             lines := [], winner := none, is_draw := false, is_over := false }

/-- Python `gamecore.py` `BaseGame.__init__`, parameterized by the concrete subclass
being constructed. -/
def BaseGame.init (rules : GameMode) (size : Int) (mode : GameMode) :
    Except String Game :=
  (Board.init size).map fun b =>
    { rules := rules, mode := mode, board := b, current_turn := .BLUE,
      score := fun _ => 0, lines := [], winner := none, is_draw := false,
      is_over := false }

/-- Python `modes.py` `make_game`: `SimpleGame(size, mode)` when `mode == SIMPLE`,
otherwise `GeneralGame(size, mode)`. -/
def make_game (size : Int) (mode : GameMode) : Except String Game :=
  if mode = .SIMPLE then BaseGame.init .SIMPLE size mode
  else BaseGame.init .GENERAL size mode

/-- Python `players.py` `ComputerPlayer._would_create_sos`: temporarily place the
letter, run detection, then restore the three saved board fields; returns the
game as left behind by the probe together with the detection verdict. -/
def ComputerPlayer.would_create_sos (g : Game) (identity : Player)
    (r c : Int) (letter : Letter) : Game × Bool :=
  let board := g.board
  let orig_letter := board.grid r c
  let orig_owner := board.owner r c
  let orig_filled := board.filled_count
  let board1 : Board :=
    { board with grid := updateFn board.grid r c letter,
                 owner := updateFn board.owner r c (some identity),
                 filled_count := board.filled_count + 1 }
  let new_lines := detect_sos_from board1 g.current_turn r c
  let board2 : Board :=
    { board1 with grid := updateFn board1.grid r c orig_letter,
                  owner := updateFn board1.owner r c orig_owner,
                  filled_count := orig_filled }
  ({ g with board := board2 }, decide (0 < new_lines.length))

/-- The states a single engine instance can be in: freshly constructed by the
factory, after a successful `start_new_game`, or after any `make_move` call. -/
inductive Reachable : Game → Prop where
  | init : ∀ (size : Int) (mode : GameMode) (g : Game),
      make_game size mode = .ok g → Reachable g
  | move : ∀ (g : Game) (r c : Int) (l : Letter),
      Reachable g → Reachable (g.make_move r c l).1
  | restart : ∀ (g g' : Game) (size : Option Int) (mode : Option GameMode),
      Reachable g → g.start_new_game size mode = .ok g' → Reachable g'

/-- A detected record `t` describes the physical line whose middle cell is `m`
and whose boundary cells are `p` and `q` (in either orientation). Two records
with swapped `p`/`q` endpoints describe the same physical line. -/
def lineMatches (p m q : Int × Int) (t : SOSLine) : Prop :=
  (t.r2, t.c2) = m ∧
    (((t.r1, t.c1) = p ∧ (t.r3, t.c3) = q) ∨ ((t.r1, t.c1) = q ∧ (t.r3, t.c3) = p))

instance (p m q : Int × Int) (t : SOSLine) : Decidable (lineMatches p m q t) := by
  unfold lineMatches; infer_instance

/-- The terminal-flag consistency the spec asserts for live games: while the
game is not over, `winner` and `is_draw` are unset, and a set `is_draw` always
comes with an unset `winner`. -/
def GameInv (g : Game) : Prop :=
  (g.is_over = false → g.winner = none ∧ g.is_draw = false) ∧
    (g.is_draw = true → g.winner = none)

/-- Fresh 3x3 `GeneralGame`, the state produced by `make_game 3 GENERAL`. -/
def g0A : Game :=
  { rules := .GENERAL, mode := .GENERAL,
    board := { n := 3, grid := fun _ _ => .EMPTY, owner := fun _ _ => none, filled_count := 0 },
    current_turn := .BLUE, score := fun _ => 0, lines := [], winner := none,
    is_draw := false, is_over := false }

/-- Fresh 3x3 `SimpleGame`, the state produced by `make_game 3 SIMPLE`. -/
def g0S : Game :=
  { rules := .SIMPLE, mode := .SIMPLE,
    board := { n := 3, grid := fun _ _ => .EMPTY, owner := fun _ _ => none, filled_count := 0 },
    current_turn := .BLUE, score := fun _ => 0, lines := [], winner := none,
    is_draw := false, is_over := false }

/-- Scenario A of the spec (3x3 accumulation variant): Blue builds S(0,0),
O(0,1), S(0,2) across row 0 while Red plays (1,0), (1,1). -/
def sA1 : Game := (g0A.make_move 0 0 .S).1

/-- Second state of scenario A: Red has answered at (1,0). -/
def sA2 : Game := (sA1.make_move 1 0 .S).1

/-- Third state of scenario A: Blue has placed the middle O at (0,1). -/
def sA3 : Game := (sA2.make_move 0 1 .O).1

/-- Fourth state of scenario A: Red has answered at (1,1). -/
def sA4 : Game := (sA3.make_move 1 1 .O).1

/-- Final state of scenario A: Blue has completed the row-0 S-O-S at (0,2). -/
def sA5 : Game := (sA4.make_move 0 2 .S).1

/-- Scenario B (3x3 immediate-win variant): same placements as scenario A. -/
def sS1 : Game := (g0S.make_move 0 0 .S).1

/-- Second state of scenario B. -/
def sS2 : Game := (sS1.make_move 1 0 .S).1

/-- Third state of scenario B. -/
def sS3 : Game := (sS2.make_move 0 1 .O).1

/-- Fourth state of scenario B, Blue to move and able to complete the row. -/
def sS4 : Game := (sS3.make_move 1 1 .O).1

/-- All-O run on the 3x3 accumulation variant, first cell filled. -/
def tO1 : Game := (g0A.make_move 0 0 .O).1

/-- All-O run, 2 cells filled. -/
def tO2 : Game := (tO1.make_move 0 1 .O).1

/-- All-O run, 3 cells filled. -/
def tO3 : Game := (tO2.make_move 0 2 .O).1

/-- All-O run, 4 cells filled. -/
def tO4 : Game := (tO3.make_move 1 0 .O).1

/-- All-O run, 5 cells filled. -/
def tO5 : Game := (tO4.make_move 1 1 .O).1

/-- All-O run, 6 cells filled. -/
def tO6 : Game := (tO5.make_move 1 2 .O).1

/-- All-O run, 7 cells filled. -/
def tO7 : Game := (tO6.make_move 2 0 .O).1

/-- All-O run, 8 cells filled, Blue to place the last cell. -/
def tO8 : Game := (tO7.make_move 2 1 .O).1

/-- All-O run, board full: drawn game. -/
def tO9 : Game := (tO8.make_move 2 2 .O).1

/-- Result of restarting the fresh simple game with size 4 and the GENERAL
mode label: only the label and board change, the class stays `SimpleGame`. -/
def g0Sr : Game :=
  { rules := .SIMPLE, mode := .GENERAL,
    board := { n := 4, grid := fun _ _ => .EMPTY, owner := fun _ _ => none, filled_count := 0 },
    current_turn := .BLUE, score := fun _ => 0, lines := [], winner := none,
    is_draw := false, is_over := false }

lemma countP_flatMap {α β : Type} (p : β → Bool) (f : α → List β) (l : List α) :
    List.countP p (l.flatMap f) = (l.map fun a => List.countP p (f a)).sum := by
  induction l with
  | nil => simp
  | cons a l ih => simp [List.flatMap_cons, List.countP_append, ih]

lemma countP_sStartSeg (b : Board) (turn : Player) (r c dr0 dc0 : Int)
    (hin : b.in_bounds (r + 2 * dr0) (c + 2 * dc0) = true)
    (hmb : b.in_bounds (r + dr0) (c + dc0) = true)
    (hmid : b.grid (r + dr0) (c + dc0) = .O)
    (hend : b.grid (r + 2 * dr0) (c + 2 * dc0) = .S)
    (d : Int × Int) :
    List.countP
      (fun t => decide (lineMatches (r, c) (r + dr0, c + dc0) (r + 2 * dr0, c + 2 * dc0) t))
      (sStartSeg b turn r c d) = if d.1 = dr0 ∧ d.2 = dc0 then 1 else 0 := by
  obtain ⟨dr, dc⟩ := d
  by_cases h : dr = dr0 ∧ dc = dc0
  · obtain ⟨rfl, rfl⟩ := h
    simp [sStartSeg, cellAt, hin, hmb, hmid, hend, lineMatches]
  · rw [if_neg h]
    unfold sStartSeg
    split
    · rw [List.countP_singleton]
      simp only [lineMatches, Prod.mk.injEq, decide_eq_true_eq]
      rw [if_neg]
      intro hc
      exact h ⟨by omega, by omega⟩
    · simp

lemma countP_sEndSeg (b : Board) (turn : Player) (r c dr0 dc0 : Int)
    (hin : b.in_bounds (r + 2 * dr0) (c + 2 * dc0) = true)
    (hmb : b.in_bounds (r + dr0) (c + dc0) = true)
    (hmid : b.grid (r + dr0) (c + dc0) = .O)
    (hend : b.grid (r + 2 * dr0) (c + 2 * dc0) = .S)
    (d : Int × Int) :
    List.countP
      (fun t => decide (lineMatches (r, c) (r + dr0, c + dc0) (r + 2 * dr0, c + 2 * dc0) t))
      (sEndSeg b turn r c d) = if d.1 = -dr0 ∧ d.2 = -dc0 then 1 else 0 := by
  obtain ⟨dr, dc⟩ := d
  by_cases h : dr = -dr0 ∧ dc = -dc0
  · obtain ⟨rfl, rfl⟩ := h
    simp [sEndSeg, cellAt, mul_neg, sub_neg_eq_add, hin, hmb, hmid, hend, lineMatches]
  · rw [if_neg h]
    unfold sEndSeg
    split
    · rw [List.countP_singleton]
      simp only [lineMatches, Prod.mk.injEq, decide_eq_true_eq]
      rw [if_neg]
      intro hc
      exact h ⟨by omega, by omega⟩
    · simp

lemma countP_oMidSeg (b : Board) (turn : Player) (r c dr0 dc0 : Int)
    (hb1 : b.in_bounds (r - dr0) (c - dc0) = true)
    (hb2 : b.in_bounds (r + dr0) (c + dc0) = true)
    (hs1 : b.grid (r - dr0) (c - dc0) = .S)
    (hs2 : b.grid (r + dr0) (c + dc0) = .S)
    (d : Int × Int) :
    List.countP
      (fun t => decide (lineMatches (r - dr0, c - dc0) (r, c) (r + dr0, c + dc0) t))
      (oMidSeg b turn r c d) =
      if (d.1 = dr0 ∧ d.2 = dc0) ∨ (d.1 = -dr0 ∧ d.2 = -dc0) then 1 else 0 := by
  obtain ⟨dr, dc⟩ := d
  by_cases h1 : dr = dr0 ∧ dc = dc0
  · obtain ⟨rfl, rfl⟩ := h1
    simp [oMidSeg, cellAt, hb1, hb2, hs1, hs2, lineMatches]
  · by_cases h2 : dr = -dr0 ∧ dc = -dc0
    · obtain ⟨rfl, rfl⟩ := h2
      simp only [sub_eq_add_neg] at hb1 hs1
      simp [oMidSeg, cellAt, sub_neg_eq_add, neg_neg, sub_eq_add_neg, hb1, hb2, hs1, hs2,
        lineMatches]
    · rw [if_neg (by tauto)]
      unfold oMidSeg
      split
      · rw [List.countP_singleton]
        simp only [lineMatches, Prod.mk.injEq, decide_eq_true_eq]
        rw [if_neg]
        intro hc
        rcases hc.2 with h | h
        · exact h1 ⟨by omega, by omega⟩
        · exact h2 ⟨by omega, by omega⟩
      · simp

lemma detect_owner_eq (b : Board) (turn : Player) (r c : Int) :
    ∀ t ∈ detect_sos_from b turn r c, t.owner = turn := by
  intro t ht
  unfold detect_sos_from at ht
  split at ht
  · simp only [List.mem_flatMap] at ht
    obtain ⟨d, _, ht⟩ := ht
    rcases List.mem_append.1 ht with h | h
    · unfold sStartSeg at h
      split at h
      · simp only [List.mem_singleton] at h
        subst h
        rfl
      · simp at h
    · unfold sEndSeg at h
      split at h
      · simp only [List.mem_singleton] at h
        subst h
        rfl
      · simp at h
  · split at ht
    · simp only [List.mem_flatMap] at ht
      obtain ⟨d, _, ht⟩ := ht
      unfold oMidSeg at ht
      split at ht
      · simp only [List.mem_singleton] at ht
        subst ht
        rfl
      · simp at ht
    · simp at ht

lemma detect_count_S (b : Board) (turn : Player) (r c dr0 dc0 : Int)
    (hd : (dr0, dc0) ∈ DIRS) (hS : b.grid r c = .S)
    (hin : b.in_bounds (r + 2 * dr0) (c + 2 * dc0) = true)
    (hmb : b.in_bounds (r + dr0) (c + dc0) = true)
    (hmid : b.grid (r + dr0) (c + dc0) = .O)
    (hend : b.grid (r + 2 * dr0) (c + 2 * dc0) = .S) :
    List.countP
      (fun t => decide (lineMatches (r, c) (r + dr0, c + dc0) (r + 2 * dr0, c + 2 * dc0) t))
      (detect_sos_from b turn r c) = 2 := by
  unfold detect_sos_from
  rw [if_pos hS, countP_flatMap]
  simp only [List.countP_append,
    countP_sStartSeg b turn r c dr0 dc0 hin hmb hmid hend,
    countP_sEndSeg b turn r c dr0 dc0 hin hmb hmid hend]
  simp only [DIRS, List.mem_cons, List.not_mem_nil, or_false, Prod.mk.injEq] at hd
  rcases hd with h8 | h8 | h8 | h8 | h8 | h8 | h8 | h8 <;>
    obtain ⟨rfl, rfl⟩ := h8 <;> decide

lemma detect_count_O (b : Board) (turn : Player) (r c dr0 dc0 : Int)
    (hd : (dr0, dc0) ∈ DIRS) (hO : b.grid r c = .O)
    (hb1 : b.in_bounds (r - dr0) (c - dc0) = true)
    (hb2 : b.in_bounds (r + dr0) (c + dc0) = true)
    (hs1 : b.grid (r - dr0) (c - dc0) = .S)
    (hs2 : b.grid (r + dr0) (c + dc0) = .S) :
    List.countP
      (fun t => decide (lineMatches (r - dr0, c - dc0) (r, c) (r + dr0, c + dc0) t))
      (detect_sos_from b turn r c) = 2 := by
  unfold detect_sos_from
  rw [if_neg (by rw [hO]; intro h; cases h), if_pos hO, countP_flatMap]
  simp only [countP_oMidSeg b turn r c dr0 dc0 hb1 hb2 hs1 hs2]
  simp only [DIRS, List.mem_cons, List.not_mem_nil, or_false, Prod.mk.injEq] at hd
  rcases hd with h8 | h8 | h8 | h8 | h8 | h8 | h8 | h8 <;>
    obtain ⟨rfl, rfl⟩ := h8 <;> decide

lemma place_fail_board {b b' : Board} {r c : Int} {l : Letter} {o : Player}
    (h : b.place r c l o = (b', false)) : b' = b := by
  unfold Board.place at h
  split at h
  · simp only [Prod.mk.injEq] at h
    exact h.1.symm
  · split at h <;> simp only [Prod.mk.injEq] at h
    · exact h.1.symm
    · cases h.2

lemma make_move_cases (g : Game) (r c : Int) (l : Letter) :
    g.make_move r c l = (g, false) ∨
    (∃ b g1, g.is_over = false ∧ (l = .S ∨ l = .O) ∧
      g.board.place r c l g.current_turn = (b, true) ∧
      g1 = { g with board := b,
                    lines := g.lines ++ detect_sos_from b g.current_turn r c,
                    score := fun p => if p = g.current_turn
                      then g.score p + ((detect_sos_from b g.current_turn r c).length : Int)
                      else g.score p } ∧
      g.make_move r c l =
        (g1.after_move (decide (0 < (detect_sos_from b g.current_turn r c).length)), true)) := by
  unfold Game.make_move
  split
  · exact Or.inl rfl
  · split
    · exact Or.inl rfl
    · rename_i hover hl
      split
      · rename_i b heq
        rw [place_fail_board heq]
        exact Or.inl rfl
      · rename_i b heq
        exact Or.inr ⟨b, _, by simpa using hover, not_not.1 hl, heq, rfl, rfl⟩

lemma simple_after_move_board (g : Game) (nl : Bool) :
    (SimpleGame.after_move g nl).board = g.board := by
  unfold SimpleGame.after_move
  dsimp only
  split
  · rfl
  · split <;> rfl

lemma simple_after_move_lines (g : Game) (nl : Bool) :
    (SimpleGame.after_move g nl).lines = g.lines := by
  unfold SimpleGame.after_move
  dsimp only
  split
  · rfl
  · split <;> rfl

lemma general_after_move_board (g : Game) (nl : Bool) :
    (GeneralGame.after_move g nl).board = g.board := by
  unfold GeneralGame.after_move
  dsimp only
  repeat' split
  all_goals rfl

lemma general_after_move_lines (g : Game) (nl : Bool) :
    (GeneralGame.after_move g nl).lines = g.lines := by
  unfold GeneralGame.after_move
  dsimp only
  repeat' split
  all_goals rfl

lemma general_after_move_score (g : Game) (nl : Bool) :
    (GeneralGame.after_move g nl).score = g.score := by
  unfold GeneralGame.after_move
  dsimp only
  repeat' split
  all_goals rfl

lemma after_move_board (g : Game) (nl : Bool) : (g.after_move nl).board = g.board := by
  unfold Game.after_move
  cases g.rules
  · exact simple_after_move_board g nl
  · exact general_after_move_board g nl

lemma after_move_lines (g : Game) (nl : Bool) : (g.after_move nl).lines = g.lines := by
  unfold Game.after_move
  cases g.rules
  · exact simple_after_move_lines g nl
  · exact general_after_move_lines g nl

lemma general_after_move_turn_true (g : Game) :
    (GeneralGame.after_move g true).current_turn = g.current_turn := by
  unfold GeneralGame.after_move
  dsimp only
  repeat' split
  all_goals simp_all

lemma general_after_move_turn_false (g : Game) :
    (GeneralGame.after_move g false).current_turn = g.current_turn.other := by
  unfold GeneralGame.after_move
  dsimp only
  repeat' split
  all_goals simp_all

lemma simple_after_move_win (g : Game) (hover : g.is_over = false) :
    SimpleGame.after_move g true =
      { g with winner := some g.current_turn, is_over := true } := by
  unfold SimpleGame.after_move
  rw [if_pos ⟨rfl, hover⟩]

lemma general_after_move_full (g : Game) (nl : Bool)
    (hfull : g.board.filled_count = g.board.n * g.board.n) :
    (GeneralGame.after_move g nl).is_over = true ∧
    (g.score .BLUE > g.score .RED →
      (GeneralGame.after_move g nl).winner = some .BLUE ∧
      (GeneralGame.after_move g nl).is_draw = g.is_draw) ∧
    (g.score .RED > g.score .BLUE →
      (GeneralGame.after_move g nl).winner = some .RED ∧
      (GeneralGame.after_move g nl).is_draw = g.is_draw) ∧
    (g.score .BLUE = g.score .RED →
      (GeneralGame.after_move g nl).winner = g.winner ∧
      (GeneralGame.after_move g nl).is_draw = true) := by
  unfold GeneralGame.after_move
  cases nl
  · rw [if_pos rfl]
    dsimp only
    rw [if_pos hfull]
    refine ⟨rfl, fun h => ?_, fun h => ?_, fun h => ?_⟩
    · rw [if_pos h]
      exact ⟨rfl, rfl⟩
    · rw [if_neg (by omega), if_pos h]
      exact ⟨rfl, rfl⟩
    · rw [if_neg (by omega), if_neg (by omega)]
      exact ⟨rfl, rfl⟩
  · rw [if_neg (show ¬(true = false) by decide)]
    dsimp only
    rw [if_pos hfull]
    refine ⟨rfl, fun h => ?_, fun h => ?_, fun h => ?_⟩
    · rw [if_pos h]
      exact ⟨rfl, rfl⟩
    · rw [if_neg (by omega), if_pos h]
      exact ⟨rfl, rfl⟩
    · rw [if_neg (by omega), if_neg (by omega)]
      exact ⟨rfl, rfl⟩

lemma general_after_move_not_full (g : Game) (nl : Bool)
    (hfull : ¬(g.board.filled_count = g.board.n * g.board.n)) :
    (GeneralGame.after_move g nl).is_over = g.is_over ∧
    (GeneralGame.after_move g nl).winner = g.winner ∧
    (GeneralGame.after_move g nl).is_draw = g.is_draw := by
  unfold GeneralGame.after_move
  cases nl
  · rw [if_pos rfl]
    dsimp only
    rw [if_neg hfull]
    exact ⟨rfl, rfl, rfl⟩
  · rw [if_neg (show ¬(true = false) by decide)]
    dsimp only
    rw [if_neg hfull]
    exact ⟨rfl, rfl, rfl⟩

lemma inv_after_move (g : Game) (nl : Bool)
    (hw : g.winner = none) (hd : g.is_draw = false) : GameInv (g.after_move nl) := by
  unfold Game.after_move
  cases g.rules
  · unfold SimpleGame.after_move
    dsimp only
    split
    · exact ⟨fun h => (by cases h), fun h => (by rw [hd] at h; cases h)⟩
    · split
      · exact ⟨fun h => (by cases h), fun _ => hw⟩
      · exact ⟨fun _ => ⟨hw, hd⟩, fun h => (by rw [hd] at h; cases h)⟩
  · unfold GeneralGame.after_move
    cases nl
    · rw [if_pos rfl]
      dsimp only
      split
      · split
        · exact ⟨fun h => (by cases h), fun h => (by rw [hd] at h; cases h)⟩
        · split
          · exact ⟨fun h => (by cases h), fun h => (by rw [hd] at h; cases h)⟩
          · exact ⟨fun h => (by cases h), fun _ => hw⟩
      · exact ⟨fun _ => ⟨hw, hd⟩, fun h => (by rw [hd] at h; cases h)⟩
    · rw [if_neg (show ¬(true = false) by decide)]
      dsimp only
      split
      · split
        · exact ⟨fun h => (by cases h), fun h => (by rw [hd] at h; cases h)⟩
        · split
          · exact ⟨fun h => (by cases h), fun h => (by rw [hd] at h; cases h)⟩
          · exact ⟨fun h => (by cases h), fun _ => hw⟩
      · exact ⟨fun _ => ⟨hw, hd⟩, fun h => (by rw [hd] at h; cases h)⟩

lemma make_game_fields (size : Int) (mode : GameMode) (g : Game)
    (h : make_game size mode = .ok g) :
    g.rules = mode ∧ g.mode = mode ∧ g.current_turn = .BLUE ∧
    g.score = (fun _ => 0) ∧ g.lines = [] ∧ g.winner = none ∧
    g.is_draw = false ∧ g.is_over = false ∧
    g.board.n = size ∧ g.board.grid = (fun _ _ => .EMPTY) ∧
    g.board.filled_count = 0 := by
  unfold make_game BaseGame.init Board.init at h
  split at h <;> split at h <;>
    simp only [Except.map, Except.ok.injEq, reduceCtorEq] at h <;>
    subst h <;> cases mode <;> simp_all

lemma start_new_game_fields (g : Game) (s : Option Int) (m : Option GameMode)
    (g' : Game) (h : g.start_new_game s m = .ok g') :
    g'.rules = g.rules ∧ g'.mode = m.getD g.mode ∧ g'.current_turn = .BLUE ∧
    g'.score = (fun _ => 0) ∧ g'.lines = [] ∧ g'.winner = none ∧
    g'.is_draw = false ∧ g'.is_over = false ∧
    g'.board.n = s.getD g.board.n ∧ g'.board.grid = (fun _ _ => .EMPTY) ∧
    g'.board.filled_count = 0 := by
  unfold Game.start_new_game Board.reset at h
  cases m <;> cases s <;> dsimp only at h <;> split at h <;>
    simp only [Except.map, Except.ok.injEq, reduceCtorEq] at h <;>
    subst h <;> simp_all

lemma reachable_inv (g : Game) (h : Reachable g) : GameInv g := by
  induction h with
  | init size mode g2 hmk =>
    obtain ⟨-, -, -, -, -, hw, hd, hov, -, -, -⟩ := make_game_fields size mode g2 hmk
    exact ⟨fun _ => ⟨hw, hd⟩, fun _ => hw⟩
  | move g2 r c l hr ih =>
    rcases make_move_cases g2 r c l with hcase | ⟨b, g1, hover, hl, hp, hg1, heq⟩
    · rw [hcase]
      exact ih
    · rw [heq]
      refine inv_after_move _ _ ?_ ?_
      · rw [hg1]
        exact (ih.1 hover).1
      · rw [hg1]
        exact (ih.1 hover).2
  | restart g2 g' s m hr hok ih =>
    obtain ⟨-, -, -, -, -, hw, hd, -, -, -, -⟩ := start_new_game_fields g2 s m g' hok
    exact ⟨fun _ => ⟨hw, hd⟩, fun _ => hw⟩

lemma after_move_simple_of_rules (g : Game) (nl : Bool) (h : g.rules = .SIMPLE) :
    g.after_move nl = SimpleGame.after_move g nl := by
  unfold Game.after_move
  rw [h]

lemma after_move_general_of_rules (g : Game) (nl : Bool) (h : g.rules = .GENERAL) :
    g.after_move nl = GeneralGame.after_move g nl := by
  unfold Game.after_move
  rw [h]

lemma simple_after_move_rules (g : Game) (nl : Bool) :
    (SimpleGame.after_move g nl).rules = g.rules := by
  unfold SimpleGame.after_move
  dsimp only
  split
  · rfl
  · split <;> rfl

lemma general_after_move_rules (g : Game) (nl : Bool) :
    (GeneralGame.after_move g nl).rules = g.rules := by
  unfold GeneralGame.after_move
  dsimp only
  repeat' split
  all_goals rfl

lemma after_move_rules (g : Game) (nl : Bool) : (g.after_move nl).rules = g.rules := by
  cases h : g.rules
  · rw [after_move_simple_of_rules g nl h, simple_after_move_rules g nl, h]
  · rw [after_move_general_of_rules g nl h, general_after_move_rules g nl, h]

lemma place_not_inbounds {b : Board} {r c : Int} {l : Letter} {o : Player}
    (h : b.in_bounds r c = false) : b.place r c l o = (b, false) := by
  unfold Board.place
  rw [if_pos (by rw [h]; rfl)]

lemma place_not_empty {b : Board} {r c : Int} {l : Letter} {o : Player}
    (h : b.is_empty r c = false) : b.place r c l o = (b, false) := by
  unfold Board.place
  rw [if_pos (by rw [h]; simp)]

/-- C1 (counterexample): reached via scenario A, Blue's completing move at
(0,2) makes the detection scan report the single physical row-0 line TWICE,
not once: two records with swapped endpoints. -/
theorem claim_C1_cx :
    (sA4.make_move 0 2 Letter.S).2 = true ∧
    (sA4.make_move 0 2 Letter.S).1 = sA5 ∧
    List.countP (fun t => decide (lineMatches (0, 0) (0, 1) (0, 2) t))
      (detect_sos_from sA5.board Player.BLUE 0 2) ≠ 1 ∧
    List.countP (fun t => decide (lineMatches (0, 0) (0, 1) (0, 2) t))
      (detect_sos_from sA5.board Player.BLUE 0 2) = 2 :=
  ⟨by decide, rfl, by decide, by decide⟩

/-- C1 (amended): the detection scan reports each completed physical line
exactly TWICE, once per orientation, whether the placed cell is a boundary S
or the middle O, and attributes every reported record to the mover. -/
theorem claim_C1 (b : Board) (turn : Player) (r c dr dc : Int)
    (hd : (dr, dc) ∈ DIRS) :
    (b.grid r c = .S → b.in_bounds (r + 2 * dr) (c + 2 * dc) = true →
      b.in_bounds (r + dr) (c + dc) = true → b.grid (r + dr) (c + dc) = .O →
      b.grid (r + 2 * dr) (c + 2 * dc) = .S →
      List.countP
        (fun t => decide (lineMatches (r, c) (r + dr, c + dc) (r + 2 * dr, c + 2 * dc) t))
        (detect_sos_from b turn r c) = 2) ∧
    (b.grid r c = .O → b.in_bounds (r - dr) (c - dc) = true →
      b.in_bounds (r + dr) (c + dc) = true → b.grid (r - dr) (c - dc) = .S →
      b.grid (r + dr) (c + dc) = .S →
      List.countP
        (fun t => decide (lineMatches (r - dr, c - dc) (r, c) (r + dr, c + dc) t))
        (detect_sos_from b turn r c) = 2) ∧
    (∀ t ∈ detect_sos_from b turn r c, t.owner = turn) :=
  ⟨fun hS hin hmb hmid hend => detect_count_S b turn r c dr dc hd hS hin hmb hmid hend,
   fun hO hb1 hb2 hs1 hs2 => detect_count_O b turn r c dr dc hd hO hb1 hb2 hs1 hs2,
   detect_owner_eq b turn r c⟩

/-- C1 (witness): on the scenario-A board the completed row-0 line, probed
from its first cell, is counted exactly twice. -/
theorem claim_C1_witness :
    List.countP
      (fun t => decide (lineMatches ((0 : Int), (0 : Int)) ((0 : Int) + 0, (0 : Int) + 1)
        ((0 : Int) + 2 * 0, (0 : Int) + 2 * 1) t))
      (detect_sos_from sA5.board Player.BLUE 0 0) = 2 :=
  (claim_C1 sA5.board Player.BLUE 0 0 0 1 (by decide)).1 (by decide) (by decide)
    (by decide) (by decide) (by decide)

/-- C2 (counterexample): in scenario A all five moves succeed, but after the
completing move Blue's score is NOT 1 (the engine counted the single physical
line once per orientation). -/
theorem claim_C2_cx :
    make_game 3 .GENERAL = .ok g0A ∧
    (g0A.make_move 0 0 .S).2 = true ∧ (sA1.make_move 1 0 .S).2 = true ∧
    (sA2.make_move 0 1 .O).2 = true ∧ (sA3.make_move 1 1 .O).2 = true ∧
    (sA4.make_move 0 2 .S).2 = true ∧
    sA5.score Player.BLUE ≠ 1 :=
  ⟨rfl, by decide, by decide, by decide, by decide, by decide, by decide⟩

/-- C2 (amended): in scenario A on the 3x3 accumulation variant the mover's
score immediately after the completing move equals 2 (one point per reported
orientation of the single physical line) and the mover retains the turn. -/
theorem claim_C2 :
    make_game 3 .GENERAL = .ok g0A ∧
    (g0A.make_move 0 0 .S).2 = true ∧ (sA1.make_move 1 0 .S).2 = true ∧
    (sA2.make_move 0 1 .O).2 = true ∧ (sA3.make_move 1 1 .O).2 = true ∧
    (sA4.make_move 0 2 .S).2 = true ∧
    sA5.score Player.BLUE = 2 ∧ sA5.current_turn = Player.BLUE :=
  ⟨rfl, by decide, by decide, by decide, by decide, by decide, by decide, by decide⟩

/-- C3 (counterexample): in the all-O accumulation run the last move succeeds,
completes no motif and fills the final cell, yet the turn still passes to the
other owner, contradicting the claim's "no switch on the last cell" clause. -/
theorem claim_C3_cx :
    make_game 3 .GENERAL = .ok g0A ∧
    (tO8.make_move 2 2 .O).2 = true ∧
    tO9.lines.length = tO8.lines.length ∧
    tO9.board.filled_count = tO9.board.n * tO9.board.n ∧
    tO8.current_turn = Player.BLUE ∧
    tO9.current_turn = Player.RED :=
  ⟨rfl, by decide, by decide, by decide, by decide, by decide⟩

/-- C3 (amended): in the accumulation variant every successful move that
completes at least one motif keeps the turn, and every successful move that
completes none passes the turn to the other owner, unconditionally - also when
that move fills the last cell. -/
theorem claim_C3 (g : Game) (r c : Int) (l : Letter)
    (hrules : g.rules = .GENERAL) (hsucc : (g.make_move r c l).2 = true) :
    (g.lines.length < (g.make_move r c l).1.lines.length →
      (g.make_move r c l).1.current_turn = g.current_turn) ∧
    ((g.make_move r c l).1.lines.length = g.lines.length →
      (g.make_move r c l).1.current_turn = g.current_turn.other) := by
  rcases make_move_cases g r c l with hcase | ⟨b, g1, hover, hl, hp, hg1, heq⟩
  · rw [hcase] at hsucc
    cases hsucc
  · have hr1 : g1.rules = .GENERAL := by
      rw [hg1]
      exact hrules
    rw [heq]
    dsimp only
    rw [after_move_general_of_rules _ _ hr1]
    constructor
    · intro hlen
      rw [general_after_move_lines, hg1] at hlen
      have hnl : decide (0 < (detect_sos_from b g.current_turn r c).length) = true := by
        rw [decide_eq_true_eq]
        simp only [List.length_append] at hlen
        omega
      rw [hnl, general_after_move_turn_true, hg1]
    · intro hlen
      rw [general_after_move_lines, hg1] at hlen
      have hnl : decide (0 < (detect_sos_from b g.current_turn r c).length) = false := by
        rw [decide_eq_false_iff_not]
        simp only [List.length_append] at hlen
        omega
      rw [hnl, general_after_move_turn_false, hg1]

/-- C3 (witness): Blue's completing move in scenario A keeps the turn. -/
theorem claim_C3_witness :
    (sA4.lines.length < (sA4.make_move 0 2 .S).1.lines.length →
      (sA4.make_move 0 2 .S).1.current_turn = sA4.current_turn) ∧
    ((sA4.make_move 0 2 .S).1.lines.length = sA4.lines.length →
      (sA4.make_move 0 2 .S).1.current_turn = sA4.current_turn.other) :=
  claim_C3 sA4 0 2 .S (by decide) (by decide)

/-- C6: `make_move` rejects - returning `false` with the state unchanged and
without any failure escape - whenever the game is over, the letter is the
EMPTY marker, the coordinate is out of bounds, or the cell is occupied. -/
theorem claim_C6 (g : Game) (r c : Int) (l : Letter)
    (h : g.is_over = true ∨ l = .EMPTY ∨ g.board.in_bounds r c = false ∨
      g.board.is_empty r c = false) :
    g.make_move r c l = (g, false) := by
  unfold Game.make_move
  by_cases hov : g.is_over
  · rw [if_pos hov]
  · rw [if_neg hov]
    by_cases hl : l = .S ∨ l = .O
    · rw [if_neg (not_not_intro hl)]
      rcases h with h | h | h | h
      · exact absurd h hov
      · subst h
        rcases hl with h' | h' <;> cases h'
      · rw [place_not_inbounds h]
      · rw [place_not_empty h]
    · rw [if_pos hl]

/-- C6 (witness): an out-of-bounds move on a fresh board is rejected with the
state unchanged. -/
theorem claim_C6_witness : g0A.make_move 5 5 .S = (g0A, false) :=
  claim_C6 g0A 5 5 .S (Or.inr (Or.inr (Or.inl (by decide))))

/-- C8: in every reachable state, a set winner and is-draw never coincide,
both are unset while the game is not over, and once over every `make_move`
call returns `false` leaving the state untouched, so `is_over` never reverts. -/
theorem claim_C8 (g : Game) (h : Reachable g) :
    ¬(g.is_draw = true ∧ g.winner ≠ none) ∧
    (g.is_over = false → g.winner = none ∧ g.is_draw = false) ∧
    (g.is_over = true → ∀ (r c : Int) (l : Letter), g.make_move r c l = (g, false)) := by
  have hi := reachable_inv g h
  refine ⟨fun hc => hc.2 (hi.2 hc.1), hi.1, fun hov r c l => ?_⟩
  unfold Game.make_move
  rw [if_pos hov]

/-- C8 (witness): the invariants hold on the freshly constructed general game. -/
theorem claim_C8_witness :
    ¬(g0A.is_draw = true ∧ g0A.winner ≠ none) ∧
    (g0A.is_over = false → g0A.winner = none ∧ g0A.is_draw = false) ∧
    (g0A.is_over = true → ∀ (r c : Int) (l : Letter), g0A.make_move r c l = (g0A, false)) :=
  claim_C8 g0A (Reachable.init 3 .GENERAL g0A rfl)

/-- C9: the opponent's simulate-detect-revert probe leaves the board's grid,
owner map and fill counter - indeed the whole game state - exactly as they
were, for every in-bounds empty target cell. -/
theorem claim_C9 (g : Game) (idp : Player) (r c : Int) (l : Letter)
    (_hin : g.board.in_bounds r c = true) (_hemp : g.board.is_empty r c = true) :
    (ComputerPlayer.would_create_sos g idp r c l).1.board.grid = g.board.grid ∧
    (ComputerPlayer.would_create_sos g idp r c l).1.board.owner = g.board.owner ∧
    (ComputerPlayer.would_create_sos g idp r c l).1.board.filled_count =
      g.board.filled_count ∧
    (ComputerPlayer.would_create_sos g idp r c l).1 = g := by
  have hg : updateFn (updateFn g.board.grid r c l) r c (g.board.grid r c) = g.board.grid := by
    funext r' c'
    unfold updateFn
    split
    · rename_i hc
      rw [hc.1, hc.2]
    · rfl
  have ho : updateFn (updateFn g.board.owner r c (some idp)) r c (g.board.owner r c) =
      g.board.owner := by
    funext r' c'
    unfold updateFn
    split
    · rename_i hc
      rw [hc.1, hc.2]
    · rfl
  have h4 : (ComputerPlayer.would_create_sos g idp r c l).1 = g := by
    show ({ g with board :=
      { n := g.board.n,
        grid := updateFn (updateFn g.board.grid r c l) r c (g.board.grid r c),
        owner := updateFn (updateFn g.board.owner r c (some idp)) r c (g.board.owner r c),
        filled_count := g.board.filled_count } } : Game) = g
    rw [hg, ho]
  exact ⟨by rw [h4], by rw [h4], by rw [h4], h4⟩

/-- C9 (witness): probing the center of a fresh board changes nothing. -/
theorem claim_C9_witness :
    (ComputerPlayer.would_create_sos g0A .RED 1 1 .S).1.board.grid = g0A.board.grid ∧
    (ComputerPlayer.would_create_sos g0A .RED 1 1 .S).1.board.owner = g0A.board.owner ∧
    (ComputerPlayer.would_create_sos g0A .RED 1 1 .S).1.board.filled_count =
      g0A.board.filled_count ∧
    (ComputerPlayer.would_create_sos g0A .RED 1 1 .S).1 = g0A :=
  claim_C9 g0A .RED 1 1 .S (by decide) (by decide)

/-- C4: in the immediate-win variant, a successful move in a live game that
completes at least one motif ends the game at once with the mover as winner,
no draw and no turn switch, with no condition on how full the board is. -/
theorem claim_C4 (g : Game) (r c : Int) (l : Letter)
    (hreach : Reachable g) (hrules : g.rules = .SIMPLE) (hover : g.is_over = false)
    (hsucc : (g.make_move r c l).2 = true)
    (hlen : g.lines.length < (g.make_move r c l).1.lines.length) :
    (g.make_move r c l).1.is_over = true ∧
    (g.make_move r c l).1.winner = some g.current_turn ∧
    (g.make_move r c l).1.is_draw = false ∧
    (g.make_move r c l).1.current_turn = g.current_turn := by
  rcases make_move_cases g r c l with hcase | ⟨b, g1, hov2, hl, hp, hg1, heq⟩
  · rw [hcase] at hsucc
    cases hsucc
  · have hr1 : g1.rules = .SIMPLE := by
      rw [hg1]
      exact hrules
    rw [heq] at hlen ⊢
    dsimp only at hlen ⊢
    rw [after_move_simple_of_rules _ _ hr1] at hlen ⊢
    rw [simple_after_move_lines, hg1] at hlen
    have hnl : decide (0 < (detect_sos_from b g.current_turn r c).length) = true := by
      rw [decide_eq_true_eq]
      simp only [List.length_append] at hlen
      omega
    rw [hnl]
    have hog1 : g1.is_over = false := by
      rw [hg1]
      exact hover
    rw [simple_after_move_win g1 hog1]
    refine ⟨rfl, ?_, ?_, ?_⟩
    · show some g1.current_turn = some g.current_turn
      rw [hg1]
    · show g1.is_draw = false
      rw [hg1]
      exact ((reachable_inv g hreach).1 hover).2
    · show g1.current_turn = g.current_turn
      rw [hg1]

/-- C4 (witness): Blue's completing move in the immediate-win scenario wins
at once with five of nine cells filled. -/
theorem claim_C4_witness :
    (sS4.make_move 0 2 .S).1.is_over = true ∧
    (sS4.make_move 0 2 .S).1.winner = some sS4.current_turn ∧
    (sS4.make_move 0 2 .S).1.is_draw = false ∧
    (sS4.make_move 0 2 .S).1.current_turn = sS4.current_turn :=
  claim_C4 sS4 0 2 .S
    (Reachable.move sS3 1 1 .O (Reachable.move sS2 0 1 .O (Reachable.move sS1 1 0 .S
      (Reachable.move g0S 0 0 .S (Reachable.init 3 .SIMPLE g0S rfl)))))
    (by decide) (by decide) (by decide) (by decide)

/-- C5: in the accumulation variant, a successful move on a live game ends it
exactly when it fills the board: then the strictly higher cumulative score
wins, equal scores set the draw flag; while the board is not full the game
stays open. -/
theorem claim_C5 (g : Game) (r c : Int) (l : Letter)
    (hreach : Reachable g) (hrules : g.rules = .GENERAL) (hover : g.is_over = false)
    (hsucc : (g.make_move r c l).2 = true) :
    ((g.make_move r c l).1.board.filled_count =
        (g.make_move r c l).1.board.n * (g.make_move r c l).1.board.n →
      (g.make_move r c l).1.is_over = true ∧
      ((g.make_move r c l).1.score .BLUE > (g.make_move r c l).1.score .RED →
        (g.make_move r c l).1.winner = some .BLUE ∧
        (g.make_move r c l).1.is_draw = false) ∧
      ((g.make_move r c l).1.score .RED > (g.make_move r c l).1.score .BLUE →
        (g.make_move r c l).1.winner = some .RED ∧
        (g.make_move r c l).1.is_draw = false) ∧
      ((g.make_move r c l).1.score .BLUE = (g.make_move r c l).1.score .RED →
        (g.make_move r c l).1.winner = none ∧
        (g.make_move r c l).1.is_draw = true)) ∧
    (¬((g.make_move r c l).1.board.filled_count =
        (g.make_move r c l).1.board.n * (g.make_move r c l).1.board.n) →
      (g.make_move r c l).1.is_over = false) := by
  rcases make_move_cases g r c l with hcase | ⟨b, g1, hov2, hl, hp, hg1, heq⟩
  · rw [hcase] at hsucc
    cases hsucc
  · have hr1 : g1.rules = .GENERAL := by
      rw [hg1]
      exact hrules
    rw [heq]
    dsimp only
    rw [after_move_general_of_rules _ _ hr1]
    constructor
    · intro hfull
      rw [general_after_move_board] at hfull
      have hres := general_after_move_full g1
        (decide (0 < (detect_sos_from b g.current_turn r c).length)) hfull
      refine ⟨hres.1, ?_, ?_, ?_⟩
      · intro hsc
        rw [general_after_move_score] at hsc
        obtain ⟨hw, hd⟩ := hres.2.1 hsc
        refine ⟨hw, ?_⟩
        rw [hd, hg1]
        exact ((reachable_inv g hreach).1 hover).2
      · intro hsc
        rw [general_after_move_score] at hsc
        obtain ⟨hw, hd⟩ := hres.2.2.1 hsc
        refine ⟨hw, ?_⟩
        rw [hd, hg1]
        exact ((reachable_inv g hreach).1 hover).2
      · intro hsc
        rw [general_after_move_score] at hsc
        obtain ⟨hw, hd⟩ := hres.2.2.2 hsc
        refine ⟨?_, hd⟩
        rw [hw, hg1]
        exact ((reachable_inv g hreach).1 hover).1
    · intro hfull
      rw [general_after_move_board] at hfull
      rw [(general_after_move_not_full g1 _ hfull).1, hg1]
      exact hover

/-- C5 (witness): the ninth all-O move fills the board and ends the game, and
with equal scores it is a draw; the implications are instantiated at that
final move. -/
theorem claim_C5_witness :
    ((tO8.make_move 2 2 .O).1.board.filled_count =
        (tO8.make_move 2 2 .O).1.board.n * (tO8.make_move 2 2 .O).1.board.n →
      (tO8.make_move 2 2 .O).1.is_over = true ∧
      ((tO8.make_move 2 2 .O).1.score .BLUE > (tO8.make_move 2 2 .O).1.score .RED →
        (tO8.make_move 2 2 .O).1.winner = some .BLUE ∧
        (tO8.make_move 2 2 .O).1.is_draw = false) ∧
      ((tO8.make_move 2 2 .O).1.score .RED > (tO8.make_move 2 2 .O).1.score .BLUE →
        (tO8.make_move 2 2 .O).1.winner = some .RED ∧
        (tO8.make_move 2 2 .O).1.is_draw = false) ∧
      ((tO8.make_move 2 2 .O).1.score .BLUE = (tO8.make_move 2 2 .O).1.score .RED →
        (tO8.make_move 2 2 .O).1.winner = none ∧
        (tO8.make_move 2 2 .O).1.is_draw = true)) ∧
    (¬((tO8.make_move 2 2 .O).1.board.filled_count =
        (tO8.make_move 2 2 .O).1.board.n * (tO8.make_move 2 2 .O).1.board.n) →
      (tO8.make_move 2 2 .O).1.is_over = false) :=
  claim_C5 tO8 2 2 .O
    (Reachable.move tO7 2 1 .O (Reachable.move tO6 2 0 .O (Reachable.move tO5 1 2 .O
      (Reachable.move tO4 1 1 .O (Reachable.move tO3 1 0 .O (Reachable.move tO2 0 2 .O
        (Reachable.move tO1 0 1 .O (Reachable.move g0A 0 0 .O
          (Reachable.init 3 .GENERAL g0A rfl)))))))))
    (by decide) (by decide) (by decide)

/-- C7: board construction, board reset and `start_new_game` reject every size
at most 2 with a raised invalid-configuration error, and for every size at
least 3 `start_new_game` succeeds with all cells empty, zero scores, no
recorded lines, Blue (the fixed first mover) on turn, and the three terminal
flags unset. -/
theorem claim_C7 (n : Int) :
    (n ≤ 2 →
      (∃ e, Board.init n = .error e) ∧
      (∀ b : Board, ∃ e, b.reset (some n) = .error e) ∧
      (∀ (g : Game) (m : Option GameMode), ∃ e,
        g.start_new_game (some n) m = .error e)) ∧
    (3 ≤ n → ∀ (g : Game) (m : Option GameMode), ∃ g',
      g.start_new_game (some n) m = .ok g' ∧
      (∀ r c, g'.board.grid r c = .EMPTY) ∧ g'.board.n = n ∧
      g'.score .BLUE = 0 ∧ g'.score .RED = 0 ∧ g'.lines = [] ∧
      g'.current_turn = .BLUE ∧ g'.is_over = false ∧ g'.winner = none ∧
      g'.is_draw = false) := by
  constructor
  · intro hle
    refine ⟨⟨"Board size must be greater than 2.", ?_⟩,
      fun b => ⟨"Board size must be greater than 2.", ?_⟩,
      fun g m => ⟨"Board size must be greater than 2.", ?_⟩⟩
    · unfold Board.init
      rw [if_pos hle]
    · unfold Board.reset
      dsimp only
      rw [if_pos hle]
    · unfold Game.start_new_game Board.reset
      cases m <;> dsimp only <;> rw [if_pos hle] <;> rfl
  · intro h3 g m
    cases m with
    | none =>
      refine ⟨{ g with
                board := { n := n, grid := fun _ _ => .EMPTY,
                           owner := fun _ _ => none, filled_count := 0 },
                current_turn := .BLUE, score := fun _ => 0, lines := [],
                winner := none, is_draw := false, is_over := false },
        ?_, fun r c => rfl, rfl, rfl, rfl, rfl, rfl, rfl, rfl, rfl⟩
      unfold Game.start_new_game Board.reset
      dsimp only
      rw [if_neg (by omega)]
      rfl
    | some mm =>
      refine ⟨{ g with
                mode := mm,
                board := { n := n, grid := fun _ _ => .EMPTY,
                           owner := fun _ _ => none, filled_count := 0 },
                current_turn := .BLUE, score := fun _ => 0, lines := [],
                winner := none, is_draw := false, is_over := false },
        ?_, fun r c => rfl, rfl, rfl, rfl, rfl, rfl, rfl, rfl, rfl⟩
      unfold Game.start_new_game Board.reset
      dsimp only
      rw [if_neg (by omega)]
      rfl

/-- C7 (witness): size 2 is rejected and size 3 succeeds with a fresh state. -/
theorem claim_C7_witness :
    (∃ e, Board.init 2 = .error e) ∧
    (∃ g', g0S.start_new_game (some 3) none = .ok g' ∧
      (∀ r c, g'.board.grid r c = .EMPTY) ∧ g'.board.n = 3 ∧
      g'.score .BLUE = 0 ∧ g'.score .RED = 0 ∧ g'.lines = [] ∧
      g'.current_turn = .BLUE ∧ g'.is_over = false ∧ g'.winner = none ∧
      g'.is_draw = false) :=
  ⟨((claim_C7 2).1 (by decide)).1, ((claim_C7 3).2 (by decide)) g0S none⟩

/-- C10: the concrete variant class is fixed by the factory at construction
and never changes afterwards - `start_new_game` only overwrites the stored
mode label, `make_move` preserves the class - and the post-move hook always
dispatches on that fixed class. -/
theorem claim_C10 :
    (∀ (size : Int) (mode : GameMode) (g : Game),
      make_game size mode = .ok g → g.rules = mode) ∧
    (∀ (g : Game) (s : Option Int) (m : Option GameMode) (g' : Game),
      g.start_new_game s m = .ok g' →
      g'.rules = g.rules ∧ g'.mode = m.getD g.mode) ∧
    (∀ (g : Game) (r c : Int) (l : Letter),
      (g.make_move r c l).1.rules = g.rules) ∧
    (∀ (g : Game) (nl : Bool), g.rules = .SIMPLE →
      g.after_move nl = SimpleGame.after_move g nl) ∧
    (∀ (g : Game) (nl : Bool), g.rules = .GENERAL →
      g.after_move nl = GeneralGame.after_move g nl) := by
  refine ⟨fun size mode g h => (make_game_fields size mode g h).1,
    fun g s m g' h => ⟨(start_new_game_fields g s m g' h).1,
      (start_new_game_fields g s m g' h).2.1⟩,
    fun g r c l => ?_,
    fun g nl h => after_move_simple_of_rules g nl h,
    fun g nl h => after_move_general_of_rules g nl h⟩
  rcases make_move_cases g r c l with hcase | ⟨b, g1, hov2, hl, hp, hg1, heq⟩
  · rw [hcase]
  · rw [heq]
    dsimp only
    rw [after_move_rules, hg1]

/-- C10 (witness): a game built as the immediate-win variant keeps its class
through a restart that passes the other mode, and each dispatch equation is
instantiated on concrete games. -/
theorem claim_C10_witness :
    g0S.rules = .SIMPLE ∧
    (g0Sr.rules = g0S.rules ∧ g0Sr.mode = (some GameMode.GENERAL).getD g0S.mode) ∧
    (g0S.make_move 0 0 .S).1.rules = g0S.rules ∧
    g0S.after_move true = SimpleGame.after_move g0S true ∧
    g0A.after_move false = GeneralGame.after_move g0A false :=
  ⟨claim_C10.1 3 .SIMPLE g0S rfl,
   claim_C10.2.1 g0S (some 4) (some .GENERAL) g0Sr rfl,
   claim_C10.2.2.1 g0S 0 0 .S,
   claim_C10.2.2.2.1 g0S true rfl,
   claim_C10.2.2.2.2 g0A false rfl⟩
